import Mathlib

/-!
Verification development for the Agentic-Honey-POT engagement engine.

Shallow embedding of the core decision components:
* `merge_intelligence`  — src/app/services/intelligence/investigator.py
* `determine_state`     — src/app/services/engagement/stage_manager.py
* `get_missing_intel`, `get_next_goal`, `get_extraction_progress`
                        — src/app/services/engagement/goal_tracker.py
* `should_stop`         — src/app/services/engagement/stop_checker.py
* `make_decision`       — src/app/services/detection/decision_maker.py
* `generation_fallback` — src/app/services/engagement/agent.py (except-branch)

Python dicts mapping category names to lists of strings are embedded as
association lists `List (String × List String)` with first-match lookup and
in-place update (`setKey`), which mirrors CPython dict insertion-order
semantics for the operations these modules perform.
-/

/-- A Python dict from category name to list of extracted string values. -/
abbrev Dict : Type := List (String × List String)

/-- First-match lookup, the semantics of `d[k]` / `d.get(k)` on a dict. -/
def dictLookup : Dict → String → Option (List String)
  | [], _ => none
  | (k', v) :: rest, k => if k' = k then some v else dictLookup rest k

/-- Python `d.get(k, [])`. -/
def getD (d : Dict) (k : String) : List String :=
  (dictLookup d k).getD []

/-- Python `k in d`. -/
def containsKey (d : Dict) (k : String) : Bool :=
  (dictLookup d k).isSome

/-- Python `d[k] = v`: replace the value in place when the key exists,
append the pair otherwise (CPython dict assignment). -/
def setKey : Dict → String → List String → Dict
  | [], k, v => [(k, v)]
  | (k', v') :: rest, k, v =>
      if k' = k then (k', v) :: rest else (k', v') :: setKey rest k v

/-- Python `list(dict.fromkeys(xs))`: deduplicate keeping first occurrences.
`seen` accumulates the values already emitted. -/
def dedupFirst (seen : List String) : List String → List String
  | [] => []
  | a :: l =>
      if seen.contains a then dedupFirst seen l
      else a :: dedupFirst (a :: seen) l

/-- The eight fixed keys hardcoded in `InvestigatorAgent.merge_intelligence`. -/
def mergeKeys : List String :=
  ["upiIds", "phoneNumbers", "bankAccounts", "amounts",
   "bankNames", "ifscCodes", "phishingLinks", "emailIds"]

/-- Embedding of `InvestigatorAgent.merge_intelligence(existing, new)`.
`existing.copy() if existing else {}` copies `existing` (an empty dict
yields `{}`, which is the same value), then every key of `mergeKeys` is
materialized with `[]` when absent, then each of those keys is assigned the
order-preserving deduplication of `merged.get(key, []) + new.get(key, [])`. -/
def merge_intelligence (existing new : Dict) : Dict :=
  let merged := existing
  let merged := mergeKeys.foldl
    (fun m key => if containsKey m key then m else setKey m key []) merged
  mergeKeys.foldl
    (fun m key => setKey m key (dedupFirst [] (getD m key ++ getD new key)))
    merged

-- ## Basic lemmas about the dict model

theorem dictLookup_setKey (m : Dict) (k : String) (v : List String) (k' : String) :
    dictLookup (setKey m k v) k' = if k = k' then some v else dictLookup m k' := by
  induction m with
  | nil =>
      simp only [setKey, dictLookup]
  | cons p rest ih =>
      obtain ⟨pk, pv⟩ := p
      simp only [setKey]
      by_cases hpk : pk = k
      · subst hpk
        by_cases h : pk = k' <;> simp [dictLookup, h]
      · simp only [if_neg hpk, dictLookup]
        by_cases h : pk = k'
        · subst h
          have : ¬ k = pk := fun he => hpk he.symm
          simp [this]
        · simp [h, ih]

theorem mem_dedupFirst (seen l : List String) (x : String) :
    x ∈ dedupFirst seen l ↔ x ∈ l ∧ x ∉ seen := by
  induction l generalizing seen with
  | nil => simp [dedupFirst]
  | cons a l ih =>
      simp only [dedupFirst]
      by_cases ha : a ∈ seen
      · rw [if_pos (by simpa using ha), ih]
        constructor
        · rintro ⟨hx, hs⟩
          exact ⟨List.mem_cons_of_mem _ hx, hs⟩
        · rintro ⟨hx, hs⟩
          rcases List.mem_cons.mp hx with rfl | hx
          · exact absurd ha hs
          · exact ⟨hx, hs⟩
      · rw [if_neg (by simpa using ha)]
        constructor
        · intro hx
          rcases List.mem_cons.mp hx with rfl | hx
          · exact ⟨List.mem_cons_self _ _, ha⟩
          · rcases (ih _).mp hx with ⟨hl, hs⟩
            exact ⟨List.mem_cons_of_mem _ hl,
              fun hm => hs (List.mem_cons_of_mem _ hm)⟩
        · rintro ⟨hx, hs⟩
          rcases List.mem_cons.mp hx with rfl | hx
          · exact List.mem_cons_self _ _
          · by_cases hxa : x = a
            · subst hxa
              exact List.mem_cons_self _ _
            · refine List.mem_cons_of_mem _ ((ih _).mpr ⟨hx, fun hm => ?_⟩)
              rcases List.mem_cons.mp hm with h | h
              · exact hxa h
              · exact hs h

theorem getD_setKey (m : Dict) (key : String) (v : List String) (k : String) :
    getD (setKey m key v) k = if key = k then v else getD m k := by
  simp only [getD, dictLookup_setKey]
  by_cases h : key = k <;> simp [h]

/-- Lookup after the second `merge_intelligence` loop: every key of `K` is
assigned the deduplicated concatenation once, other keys are untouched. -/
theorem dictLookup_foldl_update (K : List String) (n : Dict) (hK : K.Nodup)
    (m : Dict) (k : String) :
    dictLookup
      (K.foldl (fun m key =>
        setKey m key (dedupFirst [] (getD m key ++ getD n key))) m) k =
      if k ∈ K then some (dedupFirst [] (getD m k ++ getD n k))
      else dictLookup m k := by
  induction K generalizing m with
  | nil => simp
  | cons key K ih =>
      have hkey : key ∉ K := (List.nodup_cons.mp hK).1
      have hnd : K.Nodup := (List.nodup_cons.mp hK).2
      simp only [List.foldl_cons]
      rw [ih hnd]
      by_cases hkK : k ∈ K
      · have hkne : key ≠ k := fun h => hkey (h ▸ hkK)
        rw [if_pos hkK, if_pos (List.mem_cons_of_mem _ hkK)]
        rw [getD_setKey, if_neg hkne]
      · rw [if_neg hkK]
        by_cases hke : key = k
        · subst hke
          rw [dictLookup_setKey, if_pos rfl, if_pos (List.mem_cons_self _ _)]
        · have hne : k ∉ key :: K := by
            intro hm
            rcases List.mem_cons.mp hm with h | h
            · exact hke h.symm
            · exact hkK h
          rw [dictLookup_setKey, if_neg hke, if_neg hne]

/-- Lookup after the first `merge_intelligence` loop: a key of `K` that is
absent gets the empty list, everything else is untouched. -/
theorem dictLookup_foldl_ensure (K : List String) (m : Dict) (k : String) :
    dictLookup
      (K.foldl (fun m key =>
        if containsKey m key then m else setKey m key []) m) k =
      if k ∈ K ∧ dictLookup m k = none then some []
      else dictLookup m k := by
  induction K generalizing m with
  | nil => simp
  | cons key K ih =>
      simp only [List.foldl_cons]
      rw [ih]
      by_cases hke : key = k
      · subst hke
        by_cases hc : containsKey m key
        · have hsome : dictLookup m key ≠ none := by
            simp only [containsKey, Option.isSome_iff_ne_none] at hc
            exact hc
          rw [if_pos hc]
          simp [hsome]
        · have hnone : dictLookup m key = none := by
            simp only [containsKey, Option.isSome_iff_ne_none] at hc
            simpa using hc
          rw [if_neg hc]
          rw [dictLookup_setKey, if_pos rfl]
          simp [hnone]
      · have hlook :
            dictLookup (if containsKey m key then m else setKey m key []) k =
              dictLookup m k := by
          by_cases hc : containsKey m key
          · rw [if_pos hc]
          · rw [if_neg hc, dictLookup_setKey, if_neg hke]
        rw [hlook]
        have hne : ¬ k = key := fun h => hke h.symm
        simp [List.mem_cons, hne]

theorem mergeKeys_nodup : mergeKeys.Nodup := by decide

/-- Characterization of `merge_intelligence` at a fixed merge key:
the value is the order-preserving deduplication of the concatenation. -/
theorem dictLookup_merge_of_mem (e n : Dict) (k : String) (hk : k ∈ mergeKeys) :
    dictLookup (merge_intelligence e n) k =
      some (dedupFirst [] (getD e k ++ getD n k)) := by
  unfold merge_intelligence
  rw [dictLookup_foldl_update _ _ mergeKeys_nodup, if_pos hk]
  congr 2
  simp only [getD]
  rw [dictLookup_foldl_ensure]
  by_cases hnone : dictLookup e k = none
  · simp [hk, hnone]
  · simp [hnone]

/-- Frame property of `merge_intelligence`: any key outside the eight fixed
merge keys keeps exactly the binding it had in `existing`; the incoming
dict is never consulted there. -/
theorem dictLookup_merge_of_not_mem (e n : Dict) (k : String)
    (hk : k ∉ mergeKeys) :
    dictLookup (merge_intelligence e n) k = dictLookup e k := by
  unfold merge_intelligence
  rw [dictLookup_foldl_update _ _ mergeKeys_nodup, if_neg hk,
    dictLookup_foldl_ensure]
  simp [hk]

-- ## Extraction goal tracker (src/app/services/engagement/goal_tracker.py)

/-- Embedding of `ExtractionGoalTracker.ALL_TARGETS`. -/
def ALL_TARGETS : List String :=
  ["upiIds", "phoneNumbers", "bankAccounts", "bankNames", "ifscCodes",
   "amounts", "phishingLinks", "emailAddresses", "caseIds",
   "policyNumbers", "orderNumbers"]

/-- Embedding of `ExtractionGoalTracker.get_missing_intel`: the targets whose current
value is absent or an empty list, in `ALL_TARGETS` order.  `category` is
accepted and ignored, as in the source. -/
def get_missing_intel (extracted : Dict) (category : Option String) :
    List String :=
  ALL_TARGETS.filter (fun target => (getD extracted target).isEmpty)

/-- The `priority` list inside `ExtractionGoalTracker.get_next_goal`. -/
def priorityOrder : List String :=
  ["amounts", "upiIds", "phoneNumbers", "bankAccounts", "phishingLinks",
   "emailAddresses", "caseIds", "bankNames", "ifscCodes",
   "orderNumbers", "policyNumbers"]

/-- Embedding of `ExtractionGoalTracker.get_next_goal`: `None` when nothing is missing,
otherwise the first entry of `priorityOrder` that is missing, with
`missing[0]` as the (unreachable) final fallback. -/
def get_next_goal (extracted : Dict) (category : Option String) :
    Option String :=
  let missing := get_missing_intel extracted category
  if missing.isEmpty then none
  else
    match priorityOrder.find? (fun target => missing.contains target) with
    | some target => some target
    | none => missing.head?

/-- Result dict of `ExtractionGoalTracker.get_extraction_progress`.
The source's `reasoning`-style presentation strings are not part of it. -/
structure ExtractionProgress where
  extracted : List String
  missing : List String
  percentage : ℚ
  next_goal : Option String
  total_types : Nat
  extracted_count : Nat

/-- Embedding of `ExtractionGoalTracker.get_extraction_progress`. -/
def get_extraction_progress (extracted : Dict) (category : Option String) :
    ExtractionProgress :=
  let all_targets := ALL_TARGETS
  let missing := get_missing_intel extracted category
  let extracted_targets :=
    all_targets.filter (fun target => !(getD extracted target).isEmpty)
  let extracted_count := extracted_targets.length
  let total := all_targets.length
  let percentage : ℚ :=
    if total > 0 then (extracted_count : ℚ) / (total : ℚ) * 100 else 0
  { extracted := extracted_targets
    missing := missing
    percentage := percentage
    next_goal := get_next_goal extracted category
    total_types := total
    extracted_count := extracted_count }

-- ## Conversation state analyzer (src/app/services/engagement/stage_manager.py)

/-- The six conversation states of `ConversationStateAnalyzer`. -/
inductive Phase where
  | initial_shock
  | understanding
  | compliance_ready
  | attempting_action
  | technical_difficulties
  | exhaustion_stalling
  deriving DecidableEq, Repr

/-- A conversation-history entry (a Python dict of strings). -/
abbrev Message := List (String × String)

/-- The `payment_info_count` local of `determine_state`: how many of the
three direct payment channel categories (`upiIds`, `phoneNumbers`,
`bankAccounts`) hold a non-empty value. -/
def payment_info_count (extracted_intel : Dict) : Nat :=
  let has_upi := !(getD extracted_intel "upiIds").isEmpty
  let has_phone := !(getD extracted_intel "phoneNumbers").isEmpty
  let has_bank := !(getD extracted_intel "bankAccounts").isEmpty
  (if has_upi then 1 else 0) + (if has_phone then 1 else 0) +
    (if has_bank then 1 else 0)

/-- Embedding of `ConversationStateAnalyzer.determine_state`.  The source also computes
an `intel_count` local that is never read afterwards; it is omitted here.
`history` and `scammer_tone` are accepted and never consulted, as in the
source. -/
def determine_state (history : List Message) (extracted_intel : Dict)
    (turn_count : Nat) (scammer_tone : String) : Phase :=
  let has_amount := !(getD extracted_intel "amounts").isEmpty
  let payment_info_count := payment_info_count extracted_intel
  if turn_count ≥ 15 then .exhaustion_stalling
  else if payment_info_count ≥ 3 then .exhaustion_stalling
  else if payment_info_count ≥ 2 then .technical_difficulties
  else if payment_info_count ≥ 1 then .attempting_action
  else if has_amount ∧ turn_count ≥ 3 then .compliance_ready
  else if turn_count ≤ 2 then .initial_shock
  else if turn_count ≤ 4 then .understanding
  else .compliance_ready

-- ## Stop condition checker (src/app/services/engagement/stop_checker.py)

/-- The fields of `SessionData` that `StopConditionChecker.should_stop`
reads (src/app/models/session.py). -/
structure SessionData where
  turn_count : Nat
  category : Option String
  extracted_intel : Dict

/-- Embedding of `StopConditionChecker.should_stop`. -/
def should_stop (session : SessionData) : Bool :=
  if session.turn_count ≥ 15 then true
  else
    let progress :=
      get_extraction_progress session.extracted_intel session.category
    if session.turn_count ≥ 8 ∧ progress.extracted_count ≥ 4 then true
    else
      let extracted := session.extracted_intel
      let has_payment :=
        !(getD extracted "upiIds").isEmpty ||
          !(getD extracted "bankAccounts").isEmpty
      let has_contact :=
        !(getD extracted "phoneNumbers").isEmpty ||
          !(getD extracted "emailAddresses").isEmpty
      let has_amount := !(getD extracted "amounts").isEmpty
      if session.turn_count ≥ 6 ∧ has_payment ∧ has_contact ∧ has_amount
      then true
      else false

-- ## Decision maker (src/app/services/detection/decision_maker.py)

/-- The three decision actions. -/
inductive DecisionAction where
  | engage
  | probe
  | ignore
  deriving DecidableEq, Repr

/-- Embedding of `ScamDetectionResult` (src/app/services/detection/llm_detector.py).
Confidence is a rational in the embedding.  The presentation-only string
fields `reasoning` and `raw_response` are omitted: no decision logic reads
them. -/
structure ScamDetectionResult where
  is_scam : Bool
  confidence : ℚ
  primary_category : Option String
  matched_patterns : List String
  red_flags : List String
  legitimacy_indicators : List String
  detection_mode : String

/-- The four thresholds a `DecisionMaker` is constructed with. -/
structure DecisionMaker where
  normal_engage_threshold : ℚ
  normal_probe_threshold : ℚ
  strict_engage_threshold : ℚ
  strict_probe_threshold : ℚ

/-- Embedding of `FinalDecision` minus the presentation-only `reasoning` f-string. -/
structure FinalDecision where
  action : DecisionAction
  scam_detected : Bool
  confidence : ℚ
  category : Option String
  detection_mode : String
  threshold_used : ℚ
  red_flags : List String

/-- Embedding of `DecisionMaker._decide_normal_mode`. -/
def DecisionMaker.decide_normal_mode (dm : DecisionMaker)
    (result : ScamDetectionResult) : FinalDecision :=
  if !result.is_scam then
    { action := .ignore, scam_detected := false
      confidence := result.confidence, category := result.primary_category
      detection_mode := "normal"
      threshold_used := dm.normal_engage_threshold
      red_flags := result.red_flags }
  else if result.confidence ≥ dm.normal_engage_threshold then
    { action := .engage, scam_detected := true
      confidence := result.confidence, category := result.primary_category
      detection_mode := "normal"
      threshold_used := dm.normal_engage_threshold
      red_flags := result.red_flags }
  else if result.confidence ≥ dm.normal_probe_threshold then
    { action := .probe, scam_detected := true
      confidence := result.confidence, category := result.primary_category
      detection_mode := "normal"
      threshold_used := dm.normal_probe_threshold
      red_flags := result.red_flags }
  else
    { action := .ignore, scam_detected := false
      confidence := result.confidence, category := result.primary_category
      detection_mode := "normal"
      threshold_used := dm.normal_probe_threshold
      red_flags := result.red_flags }

/-- Embedding of `DecisionMaker._decide_strict_mode`: engaging additionally requires at
least 3 red flags, probing at least 2. -/
def DecisionMaker.decide_strict_mode (dm : DecisionMaker)
    (result : ScamDetectionResult) : FinalDecision :=
  if !result.is_scam then
    { action := .ignore, scam_detected := false
      confidence := result.confidence, category := result.primary_category
      detection_mode := "strict"
      threshold_used := dm.strict_engage_threshold
      red_flags := result.red_flags }
  else
    let num_indicators := result.red_flags.length
    if result.confidence ≥ dm.strict_engage_threshold ∧ num_indicators ≥ 3
    then
      { action := .engage, scam_detected := true
        confidence := result.confidence, category := result.primary_category
        detection_mode := "strict"
        threshold_used := dm.strict_engage_threshold
        red_flags := result.red_flags }
    else if result.confidence ≥ dm.strict_probe_threshold then
      if num_indicators ≥ 2 then
        { action := .probe, scam_detected := true
          confidence := result.confidence
          category := result.primary_category
          detection_mode := "strict"
          threshold_used := dm.strict_probe_threshold
          red_flags := result.red_flags }
      else
        { action := .ignore, scam_detected := false
          confidence := result.confidence
          category := result.primary_category
          detection_mode := "strict"
          threshold_used := dm.strict_probe_threshold
          red_flags := result.red_flags }
    else
      { action := .ignore, scam_detected := false
        confidence := result.confidence, category := result.primary_category
        detection_mode := "strict"
        threshold_used := dm.strict_probe_threshold
        red_flags := result.red_flags }

/-- Embedding of `DecisionMaker.make_decision`: dispatch on the detection mode. -/
def DecisionMaker.make_decision (dm : DecisionMaker)
    (detection_result : ScamDetectionResult) : FinalDecision :=
  if detection_result.detection_mode = "normal" then
    dm.decide_normal_mode detection_result
  else
    dm.decide_strict_mode detection_result

-- ## Generation-failure fallback (src/app/services/engagement/agent.py)

/-- The except-branch of step 9 of `EngagementAgent.generate_response`: the
reply used when the LLM generation call raises or times out, selected from
the detected scammer tone and the threat signal.  No later step of the
orchestrator modifies `reply_text`, so this is the reply the turn returns. -/
def generation_fallback (scammer_tone : String) (has_threat : Bool) :
    String :=
  if scammer_tone = "aggressive" then "ok ok im trying plz wait"
  else if has_threat then "im scared what do i do"
  else "umm wait let me understand"

-- ## Characterization of the stop checker

/-- Rules of `should_stop` unfolded into the disjunction of its three rules. -/
theorem should_stop_eq_true_iff (s : SessionData) :
    should_stop s = true ↔
      15 ≤ s.turn_count ∨
        (8 ≤ s.turn_count ∧
          4 ≤ (get_extraction_progress s.extracted_intel
                s.category).extracted_count) ∨
        (6 ≤ s.turn_count ∧
          (getD s.extracted_intel "upiIds" ≠ [] ∨
            getD s.extracted_intel "bankAccounts" ≠ []) ∧
          (getD s.extracted_intel "phoneNumbers" ≠ [] ∨
            getD s.extracted_intel "emailAddresses" ≠ []) ∧
          getD s.extracted_intel "amounts" ≠ []) := by
  unfold should_stop
  split_ifs with h1 h2 h3 <;>
    simp_all [List.isEmpty_iff, ge_iff_le]

/-- C5: the stop-condition evaluator is monotonic in turn count — for a
fixed intelligence snapshot (and category), once `should_stop` is true at
some turn count it stays true at every larger turn count. -/
theorem should_stop_monotone_in_turn_count (intel : Dict)
    (cat : Option String) (t1 t2 : Nat) (h12 : t1 ≤ t2)
    (h : should_stop ⟨t1, cat, intel⟩ = true) :
    should_stop ⟨t2, cat, intel⟩ = true := by
  rw [should_stop_eq_true_iff] at h ⊢
  rcases h with h | ⟨h8, h4⟩ | ⟨h6, hrest⟩
  · exact Or.inl (by simp_all; omega)
  · exact Or.inr (Or.inl ⟨by simp_all; omega, h4⟩)
  · exact Or.inr (Or.inr ⟨by simp_all; omega, hrest⟩)

theorem should_stop_monotone_witness :
    should_stop ⟨16, none, []⟩ = true :=
  should_stop_monotone_in_turn_count [] none 15 16 (by decide) (by decide)

/-- C10: `determine_state` is a function of the turn count and the
extracted intelligence only — two calls with the same turn count and
intelligence mapping return the same phase even when the conversation
history and the detected tone differ. -/
theorem determine_state_ignores_history_and_tone
    (history1 history2 : List Message) (intel : Dict) (turn_count : Nat)
    (tone1 tone2 : String) :
    determine_state history1 intel turn_count tone1 =
      determine_state history2 intel turn_count tone2 := rfl

/-- C8: when the reply-generation call fails or times out, the reply the
orchestrator returns is one of three canned fallback replies selected by
the detected adversary tone and threat signal, and it is never empty. -/
theorem generation_fallback_canned_and_nonempty
    (scammer_tone : String) (has_threat : Bool) :
    generation_fallback scammer_tone has_threat ∈
      ["ok ok im trying plz wait", "im scared what do i do",
        "umm wait let me understand"] ∧
    generation_fallback scammer_tone has_threat ≠ "" := by
  unfold generation_fallback
  split_ifs <;> simp

/-- C4: `determine_state` evaluates its rules in order, first match wins:
turn count at least 15 gives stalling; at least 3 populated direct payment
channel categories gives stalling; exactly 2 gives technical difficulty;
exactly 1 gives attempting action; a populated amounts category with turn
count at least 3 gives compliance ready; turn count at most 2 gives
initial contact; at most 4 gives understanding; otherwise compliance
ready. -/
theorem determine_state_rule_order (history : List Message) (intel : Dict)
    (tc : Nat) (tone : String) :
    (15 ≤ tc →
      determine_state history intel tc tone = .exhaustion_stalling) ∧
    (tc < 15 → 3 ≤ payment_info_count intel →
      determine_state history intel tc tone = .exhaustion_stalling) ∧
    (tc < 15 → payment_info_count intel = 2 →
      determine_state history intel tc tone = .technical_difficulties) ∧
    (tc < 15 → payment_info_count intel = 1 →
      determine_state history intel tc tone = .attempting_action) ∧
    (tc < 15 → payment_info_count intel = 0 →
      getD intel "amounts" ≠ [] → 3 ≤ tc →
      determine_state history intel tc tone = .compliance_ready) ∧
    (tc < 15 → payment_info_count intel = 0 →
      (getD intel "amounts" = [] ∨ tc < 3) → tc ≤ 2 →
      determine_state history intel tc tone = .initial_shock) ∧
    (tc < 15 → payment_info_count intel = 0 →
      (getD intel "amounts" = [] ∨ tc < 3) → 2 < tc → tc ≤ 4 →
      determine_state history intel tc tone = .understanding) ∧
    (tc < 15 → payment_info_count intel = 0 →
      (getD intel "amounts" = [] ∨ tc < 3) → 4 < tc →
      determine_state history intel tc tone = .compliance_ready) := by
  refine ⟨?_, ?_, ?_, ?_, ?_, ?_, ?_, ?_⟩ <;>
    intros <;>
    simp only [determine_state] <;>
    split_ifs <;>
    first
      | rfl
      | omega
      | (simp_all [List.isEmpty_iff]; done)
      | (simp_all [List.isEmpty_iff]; omega)

theorem determine_state_rule_order_witness :
    determine_state [] [] 15 "neutral" = .exhaustion_stalling :=
  (determine_state_rule_order [] [] 15 "neutral").1 (by decide)

/-- C6 counterexample: with exactly payment-address (`upiIds`),
contact-number (`phoneNumbers`) and bank-account (`bankAccounts`)
populated, `should_stop` is still false at turn count 8 — only three
intelligence types are extracted, short of the four required by the
turn-8 rule, and no amount is known for the turn-6 rule. -/
theorem scenario_c_not_stop_at_8 :
    should_stop ⟨8, none,
      [("upiIds", ["scammer@upi"]), ("phoneNumbers", ["9876543210"]),
        ("bankAccounts", ["1234567890"])]⟩ = false := by decide

/-- C6 amended: with exactly `upiIds`, `phoneNumbers` and `bankAccounts`
populated, `determine_state` at turn 7 is stalling and `should_stop` is
false at turns 7 and 8 alike, first becoming true at the turn-15 hard
limit. -/
theorem scenario_c_amended (us ps bs : List String)
    (hu : us ≠ []) (hp : ps ≠ []) (hb : bs ≠ [])
    (cat : Option String) (history : List Message) (tone : String) :
    determine_state history
        [("upiIds", us), ("phoneNumbers", ps), ("bankAccounts", bs)]
        7 tone = .exhaustion_stalling ∧
    should_stop ⟨7, cat,
        [("upiIds", us), ("phoneNumbers", ps), ("bankAccounts", bs)]⟩ =
      false ∧
    should_stop ⟨8, cat,
        [("upiIds", us), ("phoneNumbers", ps), ("bankAccounts", bs)]⟩ =
      false ∧
    should_stop ⟨15, cat,
        [("upiIds", us), ("phoneNumbers", ps), ("bankAccounts", bs)]⟩ =
      true := by
  have hu' : us.isEmpty = false := by
    cases us with
    | nil => exact absurd rfl hu
    | cons a l => rfl
  have hp' : ps.isEmpty = false := by
    cases ps with
    | nil => exact absurd rfl hp
    | cons a l => rfl
  have hb' : bs.isEmpty = false := by
    cases bs with
    | nil => exact absurd rfl hb
    | cons a l => rfl
  refine ⟨?_, ?_, ?_, ?_⟩
  · simp [determine_state, payment_info_count, getD, dictLookup, hu', hp',
      hb']
  · simp [should_stop, get_extraction_progress, get_missing_intel,
      ALL_TARGETS, getD, dictLookup, hu', hp', hb']
  · simp [should_stop, get_extraction_progress, get_missing_intel,
      ALL_TARGETS, getD, dictLookup, hu', hp', hb']
  · simp [should_stop]

theorem scenario_c_amended_witness :
    determine_state []
        [("upiIds", ["a@upi"]), ("phoneNumbers", ["99"]),
          ("bankAccounts", ["11"])] 7 "neutral" = .exhaustion_stalling ∧
    should_stop ⟨7, none,
        [("upiIds", ["a@upi"]), ("phoneNumbers", ["99"]),
          ("bankAccounts", ["11"])]⟩ = false ∧
    should_stop ⟨8, none,
        [("upiIds", ["a@upi"]), ("phoneNumbers", ["99"]),
          ("bankAccounts", ["11"])]⟩ = false ∧
    should_stop ⟨15, none,
        [("upiIds", ["a@upi"]), ("phoneNumbers", ["99"]),
          ("bankAccounts", ["11"])]⟩ = true :=
  scenario_c_amended ["a@upi"] ["99"] ["11"]
    (by decide) (by decide) (by decide) none [] "neutral"

-- ## Next-goal refinement

/-- Modelled from the spec (§4.3): `nextGoal` as the spec words it — the
first missing target category in the fixed priority order, `none` when no
target category is missing. -/
def nextGoal_specOrder (extracted : Dict) : Option String :=
  priorityOrder.find? (fun target => (getD extracted target).isEmpty)

theorem find_eq_of_agree {α : Type} (l : List α) (f g : α → Bool)
    (h : ∀ x ∈ l, f x = g x) : l.find? f = l.find? g := by
  induction l with
  | nil => rfl
  | cons a l ih =>
      simp only [List.find?]
      rw [h a (List.mem_cons_self _ _)]
      cases hg : g a with
      | true => rfl
      | false => exact ih fun x hx => h x (List.mem_cons_of_mem _ hx)

/-- C7: `get_next_goal` returns the first missing target category in the
fixed priority order (amounts, upiIds, phoneNumbers, bankAccounts,
phishingLinks, emailAddresses, caseIds, bankNames, ifscCodes,
orderNumbers, policyNumbers), and returns no goal when no target category
is missing. -/
theorem get_next_goal_first_missing_in_priority (extracted : Dict)
    (category : Option String) :
    get_next_goal extracted category = nextGoal_specOrder extracted ∧
    ((∀ t ∈ ALL_TARGETS, getD extracted t ≠ []) →
      get_next_goal extracted category = none) := by
  have hPT : ∀ x ∈ priorityOrder, x ∈ ALL_TARGETS := by decide
  have hTP : ∀ x ∈ ALL_TARGETS, x ∈ priorityOrder := by decide
  have hmain :
      get_next_goal extracted category = nextGoal_specOrder extracted := by
    unfold get_next_goal nextGoal_specOrder get_missing_intel
    by_cases hemp :
        (ALL_TARGETS.filter fun t => (getD extracted t).isEmpty).isEmpty
    · rw [if_pos hemp]
      have hnone :
          priorityOrder.find? (fun t => (getD extracted t).isEmpty) =
            none := by
        rw [List.find?_eq_none]
        intro x hx hpx
        have hmem :
            x ∈ ALL_TARGETS.filter fun t => (getD extracted t).isEmpty :=
          List.mem_filter.mpr ⟨hPT x hx, hpx⟩
        rw [List.isEmpty_iff] at hemp
        rw [hemp] at hmem
        exact absurd hmem (List.not_mem_nil x)
      exact hnone.symm
    · rw [if_neg hemp]
      have hagree : ∀ x ∈ priorityOrder,
          ((ALL_TARGETS.filter
              fun t => (getD extracted t).isEmpty).contains x) =
            (getD extracted x).isEmpty := by
        intro x hx
        cases hpx : (getD extracted x).isEmpty with
        | true =>
            have hmem :
                x ∈ ALL_TARGETS.filter
                  fun t => (getD extracted t).isEmpty :=
              List.mem_filter.mpr ⟨hPT x hx, hpx⟩
            simpa using hmem
        | false =>
            have hnotmem :
                x ∉ ALL_TARGETS.filter
                  fun t => (getD extracted t).isEmpty := by
              intro hm
              have := (List.mem_filter.mp hm).2
              rw [hpx] at this
              exact absurd this (by decide)
            simpa using hnotmem
      rw [find_eq_of_agree _ _ _ hagree]
      cases hfind :
          priorityOrder.find? fun t => (getD extracted t).isEmpty with
      | some t => rfl
      | none =>
          exfalso
          rw [List.find?_eq_none] at hfind
          have hnil :
              (ALL_TARGETS.filter fun t => (getD extracted t).isEmpty) =
                [] := by
            rw [List.filter_eq_nil_iff]
            intro a ha
            exact hfind a (hTP a ha)
          rw [List.isEmpty_iff] at hemp
          exact hemp hnil
  refine ⟨hmain, fun hall => ?_⟩
  rw [hmain]
  unfold nextGoal_specOrder
  rw [List.find?_eq_none]
  intro x hx hpx
  rw [List.isEmpty_iff] at hpx
  exact hall x (hPT x hx) hpx

theorem get_next_goal_witness :
    get_next_goal [] none = nextGoal_specOrder [] ∧
    get_next_goal
        [("upiIds", ["u"]), ("phoneNumbers", ["p"]),
          ("bankAccounts", ["b"]), ("bankNames", ["n"]),
          ("ifscCodes", ["i"]), ("amounts", ["a"]),
          ("phishingLinks", ["l"]), ("emailAddresses", ["e"]),
          ("caseIds", ["c"]), ("policyNumbers", ["y"]),
          ("orderNumbers", ["o"])] none = none :=
  ⟨(get_next_goal_first_missing_in_priority [] none).1,
    (get_next_goal_first_missing_in_priority _ none).2 (by decide)⟩

-- ## Merge claims

theorem containsKey_iff_mem_keys (d : Dict) (k : String) :
    containsKey d k = true ↔ k ∈ d.map Prod.fst := by
  induction d with
  | nil => simp [containsKey, dictLookup]
  | cons p rest ih =>
      obtain ⟨pk, pv⟩ := p
      by_cases h : pk = k
      · subst h
        simp [containsKey, dictLookup]
      · have h' : ¬ k = pk := fun e => h e.symm
        simp only [containsKey, dictLookup, if_neg h, List.map_cons,
          List.mem_cons]
        rw [show (dictLookup rest k).isSome = containsKey rest k from rfl,
          ih]
        constructor
        · exact Or.inr
        · rintro (e | hm)
          · exact absurd e h'
          · exact hm

/-- C9: the merge unions values only under the eight fixed merge keys; any
other key — including the goal tracker targets `emailAddresses`,
`caseIds`, `policyNumbers` and `orderNumbers` — keeps exactly the binding
of the existing dict, so incoming values under such keys never appear. -/
theorem merge_unions_only_merge_keys (e n : Dict) :
    (∀ k ∈ mergeKeys, ∀ x,
        x ∈ getD (merge_intelligence e n) k ↔
          x ∈ getD e k ∨ x ∈ getD n k) ∧
    (∀ k, k ∉ mergeKeys →
        dictLookup (merge_intelligence e n) k = dictLookup e k) ∧
    ("emailAddresses" ∉ mergeKeys ∧ "caseIds" ∉ mergeKeys ∧
      "policyNumbers" ∉ mergeKeys ∧ "orderNumbers" ∉ mergeKeys) := by
  refine ⟨?_, ?_, by decide⟩
  · intro k hk x
    rw [getD, dictLookup_merge_of_mem e n k hk]
    simp [mem_dedupFirst, List.mem_append]
  · intro k hk
    exact dictLookup_merge_of_not_mem e n k hk

theorem merge_unions_only_merge_keys_witness :
    dictLookup
        (merge_intelligence [("caseIds", ["CR77"])] [("caseIds", ["CR88"])])
        "caseIds" =
      dictLookup [("caseIds", ["CR77"])] "caseIds" :=
  (merge_unions_only_merge_keys [("caseIds", ["CR77"])]
      [("caseIds", ["CR88"])]).2.1 "caseIds" (by decide)

/-- C3 counterexample: `upiIds` is absent from both (empty) inputs yet
present in the merge result, materialized as an empty list. -/
theorem merge_materializes_empty_categories :
    dictLookup ([] : Dict) "upiIds" = none ∧
    dictLookup (merge_intelligence [] []) "upiIds" = some [] := by
  exact ⟨rfl, rfl⟩

/-- C3 amended: a category outside the eight fixed merge keys that is
absent from both inputs is absent from the result; each of the eight
fixed merge keys, in contrast, is always present in the result (as an
empty list when it was absent from both inputs). -/
theorem merge_absent_categories (e n : Dict) :
    (∀ k, k ∉ mergeKeys → dictLookup e k = none → dictLookup n k = none →
        dictLookup (merge_intelligence e n) k = none) ∧
    (∀ k ∈ mergeKeys, containsKey (merge_intelligence e n) k = true) := by
  constructor
  · intro k hk he hn
    rw [dictLookup_merge_of_not_mem e n k hk, he]
  · intro k hk
    rw [containsKey, dictLookup_merge_of_mem e n k hk]
    rfl

theorem merge_absent_categories_witness :
    dictLookup (merge_intelligence [] []) "caseIds" = none ∧
    containsKey (merge_intelligence [] []) "upiIds" = true :=
  ⟨(merge_absent_categories [] []).1 "caseIds" (by decide) rfl rfl,
    (merge_absent_categories [] []).2 "upiIds" (by decide)⟩

/-- C2 counterexample: merge is neither commutative nor idempotent on
arbitrary mappings — a non-merge-key category (`caseIds`) of the first
argument survives while the same category of the second argument is
dropped, and merging the empty mapping with itself materializes the eight
fixed keys. -/
theorem merge_not_commutative_not_idempotent :
    dictLookup (merge_intelligence [("caseIds", ["CR9"])] []) "caseIds" =
      some ["CR9"] ∧
    dictLookup (merge_intelligence [] [("caseIds", ["CR9"])]) "caseIds" =
      none ∧
    merge_intelligence [] [] ≠ ([] : Dict) := by
  exact ⟨rfl, rfl, by decide⟩

/-- Two dicts are equivalent as mappings to sets of strings: the same
keys are present persisted and each key holds the same set of values. -/
def DictEquivSet (d1 d2 : Dict) : Prop :=
  ∀ k, containsKey d1 k = containsKey d2 k ∧
    ∀ x, (x ∈ getD d1 k ↔ x ∈ getD d2 k)

/-- C2 amended: restricted to inputs whose key set is exactly the eight
fixed merge keys — the shape of every intelligence dict the merge is used
with — the merge is commutative and idempotent up to per-key value-set
equality. -/
theorem merge_comm_idem_on_merge_key_domain (A B : Dict)
    (hA1 : ∀ k ∈ A.map Prod.fst, k ∈ mergeKeys)
    (hA2 : ∀ k ∈ mergeKeys, k ∈ A.map Prod.fst)
    (hB1 : ∀ k ∈ B.map Prod.fst, k ∈ mergeKeys)
    (hB2 : ∀ k ∈ mergeKeys, k ∈ B.map Prod.fst) :
    DictEquivSet (merge_intelligence A B) (merge_intelligence B A) ∧
    DictEquivSet (merge_intelligence A A) A := by
  have hAc : ∀ k, containsKey A k = true ↔ k ∈ mergeKeys := fun k =>
    ⟨fun h => hA1 k ((containsKey_iff_mem_keys A k).mp h),
      fun h => (containsKey_iff_mem_keys A k).mpr (hA2 k h)⟩
  have hBc : ∀ k, containsKey B k = true ↔ k ∈ mergeKeys := fun k =>
    ⟨fun h => hB1 k ((containsKey_iff_mem_keys B k).mp h),
      fun h => (containsKey_iff_mem_keys B k).mpr (hB2 k h)⟩
  have hnone : ∀ (D : Dict),
      (∀ k, containsKey D k = true ↔ k ∈ mergeKeys) →
      ∀ k, k ∉ mergeKeys → dictLookup D k = none := by
    intro D hD k hk
    cases hd : dictLookup D k with
    | none => rfl
    | some v =>
        exact absurd ((hD k).mp (by simp [containsKey, hd])) hk
  constructor
  · intro k
    by_cases hk : k ∈ mergeKeys
    · constructor
      · rw [containsKey, containsKey, dictLookup_merge_of_mem A B k hk,
          dictLookup_merge_of_mem B A k hk]
        rfl
      · intro x
        rw [getD, getD, dictLookup_merge_of_mem A B k hk,
          dictLookup_merge_of_mem B A k hk]
        simp only [Option.getD_some]
        rw [mem_dedupFirst, mem_dedupFirst]
        simp only [List.mem_append, List.not_mem_nil, not_false_iff,
          and_true]
        exact or_comm
    · constructor
      · rw [containsKey, containsKey, dictLookup_merge_of_not_mem A B k hk,
          dictLookup_merge_of_not_mem B A k hk, hnone A hAc k hk,
          hnone B hBc k hk]
      · intro x
        rw [getD, getD, dictLookup_merge_of_not_mem A B k hk,
          dictLookup_merge_of_not_mem B A k hk, hnone A hAc k hk,
          hnone B hBc k hk]
  · intro k
    by_cases hk : k ∈ mergeKeys
    · constructor
      · rw [containsKey, dictLookup_merge_of_mem A A k hk]
        exact ((hAc k).mpr hk).symm
      · intro x
        rw [getD, dictLookup_merge_of_mem A A k hk]
        simp only [Option.getD_some]
        rw [mem_dedupFirst]
        simp [List.mem_append]
    · constructor
      · rw [containsKey, containsKey, dictLookup_merge_of_not_mem A A k hk]
      · intro x
        rw [getD, getD, dictLookup_merge_of_not_mem A A k hk]

/-- A concrete intelligence dict over exactly the eight merge keys. -/
def intelSampleA : Dict :=
  [("upiIds", ["fraud@upi"]), ("phoneNumbers", ["9000000001"]),
   ("bankAccounts", ["111122223333"]), ("amounts", ["5000"]),
   ("bankNames", ["SBI"]), ("ifscCodes", ["SBIN0000001"]),
   ("phishingLinks", ["http://bad.example"]),
   ("emailIds", ["fraud@example.com"])]

/-- A second concrete intelligence dict over the eight merge keys. -/
def intelSampleB : Dict :=
  [("upiIds", ["other@upi"]), ("phoneNumbers", ["9000000002"]),
   ("bankAccounts", []), ("amounts", ["5000", "9000"]),
   ("bankNames", []), ("ifscCodes", ["HDFC0000001"]),
   ("phishingLinks", []), ("emailIds", [])]

theorem merge_comm_idem_witness :
    DictEquivSet (merge_intelligence intelSampleA intelSampleB)
        (merge_intelligence intelSampleB intelSampleA) ∧
    DictEquivSet (merge_intelligence intelSampleA intelSampleA)
      intelSampleA :=
  merge_comm_idem_on_merge_key_domain intelSampleA intelSampleB
    (by decide) (by decide) (by decide) (by decide)

-- ## Decision maker claims

/-- A decision maker holding the thresholds the source documents
(normal 0.7 / 0.5, strict 0.85 / 0.70). -/
def documentedThresholds : DecisionMaker :=
  { normal_engage_threshold := 7/10, normal_probe_threshold := 1/2,
    strict_engage_threshold := 17/20, strict_probe_threshold := 7/10 }

/-- A strict-mode classification with confidence 0.9 and no red flags. -/
def strictHighConfNoFlags : ScamDetectionResult :=
  { is_scam := true, confidence := 9/10,
    primary_category := some "phishing", matched_patterns := [],
    red_flags := [], legitimacy_indicators := [],
    detection_mode := "strict" }

/-- C1 counterexample: a strict-mode result with `isScam = true` and
confidence 0.9 — above the 0.85 strict engage threshold — is ignored
rather than engaged, because it carries no red flags and strict mode
additionally requires at least three indicators to engage (and two to
probe). -/
theorem make_decision_high_confidence_ignored :
    strictHighConfNoFlags.is_scam = true ∧
    documentedThresholds.strict_engage_threshold ≤
      strictHighConfNoFlags.confidence ∧
    (documentedThresholds.make_decision strictHighConfNoFlags).action =
      DecisionAction.ignore := by
  have hact :
      (documentedThresholds.make_decision strictHighConfNoFlags).action =
        DecisionAction.ignore := by
    simp only [DecisionMaker.make_decision,
      DecisionMaker.decide_strict_mode, documentedThresholds,
      strictHighConfNoFlags]
    rw [if_neg (by decide : ¬("strict" : String) = "normal")]
    norm_num
  refine ⟨rfl, ?_, hact⟩
  norm_num [documentedThresholds, strictHighConfNoFlags]

/-- C1 amended: for normal-mode results the claimed tiering holds exactly
(given the configured invariant probe threshold at most engage threshold);
for results in any other detection mode the strict rules apply — engage
additionally requires at least 3 red flags, probe requires confidence at
or above the strict probe threshold and at least 2 red flags, anything
else is ignored; `isScam = false` is always ignored. -/
theorem make_decision_threshold_tiers (dm : DecisionMaker)
    (r : ScamDetectionResult) :
    (r.is_scam = false → (dm.make_decision r).action = .ignore) ∧
    (r.detection_mode = "normal" → r.is_scam = true →
      dm.normal_engage_threshold ≤ r.confidence →
      (dm.make_decision r).action = .engage) ∧
    (r.detection_mode = "normal" → r.is_scam = true →
      dm.normal_probe_threshold ≤ r.confidence →
      r.confidence < dm.normal_engage_threshold →
      (dm.make_decision r).action = .probe) ∧
    (r.detection_mode = "normal" → r.is_scam = true →
      dm.normal_probe_threshold ≤ dm.normal_engage_threshold →
      r.confidence < dm.normal_probe_threshold →
      (dm.make_decision r).action = .ignore) ∧
    (r.detection_mode ≠ "normal" → r.is_scam = true →
      dm.strict_engage_threshold ≤ r.confidence →
      3 ≤ r.red_flags.length →
      (dm.make_decision r).action = .engage) ∧
    (r.detection_mode ≠ "normal" → r.is_scam = true →
      ¬(dm.strict_engage_threshold ≤ r.confidence ∧
          3 ≤ r.red_flags.length) →
      dm.strict_probe_threshold ≤ r.confidence →
      2 ≤ r.red_flags.length →
      (dm.make_decision r).action = .probe) ∧
    (r.detection_mode ≠ "normal" → r.is_scam = true →
      ¬(dm.strict_engage_threshold ≤ r.confidence ∧
          3 ≤ r.red_flags.length) →
      (r.confidence < dm.strict_probe_threshold ∨
          r.red_flags.length < 2) →
      (dm.make_decision r).action = .ignore) := by
  refine ⟨?_, ?_, ?_, ?_, ?_, ?_, ?_⟩
  · intro h
    by_cases hm : r.detection_mode = "normal" <;>
      simp [DecisionMaker.make_decision, DecisionMaker.decide_normal_mode,
        DecisionMaker.decide_strict_mode, h, hm]
  · intro hm hs hconf
    simp only [DecisionMaker.make_decision,
      DecisionMaker.decide_normal_mode]
    rw [if_pos hm, hs]
    rw [if_neg (by simp), if_pos hconf]
  · intro hm hs hprobe hlt
    simp only [DecisionMaker.make_decision,
      DecisionMaker.decide_normal_mode]
    rw [if_pos hm, hs]
    rw [if_neg (by simp), if_neg (not_le.mpr hlt), if_pos hprobe]
  · intro hm hs hord hlt
    simp only [DecisionMaker.make_decision,
      DecisionMaker.decide_normal_mode]
    rw [if_pos hm, hs]
    rw [if_neg (by simp), if_neg (not_le.mpr (by linarith)),
      if_neg (not_le.mpr hlt)]
  · intro hm hs hconf hflags
    simp only [DecisionMaker.make_decision,
      DecisionMaker.decide_strict_mode]
    rw [if_neg hm, hs]
    rw [if_neg (by simp), if_pos ⟨hconf, hflags⟩]
  · intro hm hs hne hprobe hlen
    simp only [DecisionMaker.make_decision,
      DecisionMaker.decide_strict_mode]
    rw [if_neg hm, hs]
    rw [if_neg (by simp), if_neg hne, if_pos hprobe, if_pos hlen]
  · intro hm hs hne hv
    simp only [DecisionMaker.make_decision,
      DecisionMaker.decide_strict_mode]
    rw [if_neg hm, hs]
    rw [if_neg (by simp), if_neg hne]
    rcases hv with hv | hv
    · rw [if_neg (not_le.mpr hv)]
    · by_cases hp : dm.strict_probe_threshold ≤ r.confidence
      · rw [if_pos hp, if_neg (by omega)]
      · rw [if_neg hp]

theorem make_decision_threshold_tiers_witness :
    (documentedThresholds.make_decision
        { is_scam := true, confidence := 92/100,
          primary_category := some "upi_fraud", matched_patterns := [],
          red_flags := ["urgency"], legitimacy_indicators := [],
          detection_mode := "normal" }).action = DecisionAction.engage :=
  (make_decision_threshold_tiers documentedThresholds
      { is_scam := true, confidence := 92/100,
        primary_category := some "upi_fraud", matched_patterns := [],
        red_flags := ["urgency"], legitimacy_indicators := [],
        detection_mode := "normal" }).2.1 rfl rfl
    (by norm_num [documentedThresholds])
